import Mathlib

/-!
# NOAAWeather: shallow embedding of the forecast parsing and normalization pipeline

This file embeds the algorithmic core of the NOAAWeather repository in Lean 4 and
proves (or refutes) the frozen claims about it.

Embedded source files:
* `src/noaa_weather/noaa_client/noaa_utils.py` — time-string decoding and unit
  conversions (`iso_to_float_time_and_delta`, `iso_to_float_time`,
  `convert_F_to_C`, `convert_C_to_F`, `speed_miph_to_mps`);
* `custom_components/noaa_weather/noaa_client/daily_forecast.py` — the
  per-period forecast parser (`DailyForecast._parse_period`, `DailyForecast._parse`);
* `custom_components/noaa_weather/noaa_client/grid_forecast.py` — the grid
  interval sampler (`GridWeather._find_in_gridpoints`);
* `src/noaa_weather/noaa_client/__init__.py` — the client refresh / caching state
  machine (`NOAAApiForHA`).

Modelling conventions:
* Python floats are modelled as exact rationals (`ℚ`); decimal literals such as
  `2.237` become the rational they denote (`2237/1000`).
* Loosely-typed JSON values are modelled by the inductive `JVal`; Python
  exceptions by `Except PyErr`.  `dict.get` (which yields `None` when the key is
  absent) is `pyGet`; attribute access on a non-dict (Python `AttributeError`) is
  `pyGetAttr`.
* `datetime.fromisoformat` (plus the time-zone handling around it) is abstracted
  by an explicit parameter `epochOf : String → Option ℚ` giving the epoch value
  of a well-formed ISO time string (`none` models a `ValueError` on a malformed
  one); everything the claims quantify over is independent of that library call.
* Python's `int(_)` / `float(_)` on strings are modelled with a simplified
  numeric grammar (optional surrounding whitespace, optional sign, digits with
  an optional fractional part) — exponents and `inf`/`nan` forms are out of the
  claims' scope.
-/

/-- The Python exception classes that the embedded code can raise or catch. -/
inductive PyErr where
  | valueError
  | typeError
  | attributeError
  | indexError
deriving DecidableEq

/-- A loosely-typed JSON/Python value, the input shape of the parsers. -/
inductive JVal where
  | null
  | bool (b : Bool)
  | int (n : ℤ)
  | rat (q : ℚ)
  | str (s : String)
  | list (xs : List JVal)
  | dict (kvs : List (String × JVal))

/-- Python truthiness (`bool(x)`) on the modelled values. -/
def pyFalsy : JVal → Bool
  | .null => true
  | .bool b => !b
  | .int n => n == 0
  | .rat q => q == 0
  | .str s => s.data.isEmpty
  | .list xs => xs.isEmpty
  | .dict kvs => kvs.isEmpty

/-- Python `d.get(k)` on a dict: the stored value, or `None` when absent. -/
def pyGet (kvs : List (String × JVal)) (k : String) : JVal :=
  match kvs.find? (fun kv => kv.1 == k) with
  | some kv => kv.2
  | none => JVal.null

/-- Python `x.get(k)` where `x` may not be a dict: `AttributeError` unless `x`
is a dict (in particular `None.get(k)` raises). -/
def pyGetAttr (v : JVal) (k : String) : Except PyErr JVal :=
  match v with
  | .dict kvs => .ok (pyGet kvs k)
  | _ => .error .attributeError

/-- Whitespace characters stripped by Python's `str.strip()` / numeric parsing. -/
def pyIsSpace (c : Char) : Bool :=
  c == ' ' || c == '\t' || c == '\n' || c == '\r' || c == '\x0b' || c == '\x0c'

/-- Strip leading and trailing whitespace from a character list. -/
def trimChars (cs : List Char) : List Char :=
  ((cs.dropWhile pyIsSpace).reverse.dropWhile pyIsSpace).reverse

/-- Value of a digit string in base 10. -/
def digitsVal (cs : List Char) : ℕ :=
  cs.foldl (fun a c => 10 * a + (c.toNat - 48)) 0

/-- Does `needle` occur at the start of `hay`? -/
def listStartsWith : List Char → List Char → Bool
  | [], _ => true
  | _ :: _, [] => false
  | a :: as, b :: bs => a == b && listStartsWith as bs

/-- Does `needle` occur as a contiguous substring of `hay`?  (Python `needle in hay`
for strings.) -/
def listContainsSub (needle : List Char) : List Char → Bool
  | [] => needle.isEmpty
  | b :: bs => listStartsWith needle (b :: bs) || listContainsSub needle bs

/-- Python `needle in hay` for strings. -/
def pyStrIn (needle hay : String) : Bool :=
  listContainsSub needle.data hay.data

/-- Split an optional leading sign off a (already trimmed) numeric string. -/
def signSplit (t : List Char) : ℤ × List Char :=
  match t with
  | [] => (1, [])
  | c :: rest =>
    if c = '+' then (1, rest)
    else if c = '-' then (-1, rest)
    else (1, c :: rest)

/-- Python `int(s)` on a string: strip whitespace, optional sign, decimal digits;
anything else raises `ValueError`. -/
def intOfChars (cs : List Char) : Except PyErr ℤ :=
  let sd := signSplit (trimChars cs)
  if !sd.2.isEmpty && sd.2.all Char.isDigit then .ok (sd.1 * digitsVal sd.2)
  else .error .valueError

/-- Unsigned decimal with optional fractional part (`"10"`, `"10.5"`, `"10."`, `".5"`). -/
def splitDot : List Char → Option (List Char × List Char)
  | [] => none
  | '.' :: rest => some ([], rest)
  | c :: rest => (splitDot rest).map (fun ab => (c :: ab.1, ab.2))

def parseUnsigned (ds : List Char) : Option ℚ :=
  match splitDot ds with
  | none =>
    if !ds.isEmpty && ds.all Char.isDigit then some (digitsVal ds) else none
  | some (a, b) =>
    if !(a ++ b).isEmpty && a.all Char.isDigit && b.all Char.isDigit then
      some ((digitsVal a : ℚ) + (digitsVal b : ℚ) / (10 : ℚ) ^ b.length)
    else none

/-- Python `float(s)` on a string (simplified grammar, see the header note). -/
def floatOfChars (cs : List Char) : Except PyErr ℚ :=
  let sd := signSplit (trimChars cs)
  match parseUnsigned sd.2 with
  | some q => .ok ((sd.1 : ℚ) * q)
  | none => .error .valueError

/-- Python `float(x)` on a modelled value: numbers pass through, strings are
parsed, everything else raises `TypeError`. -/
def pyFloat (v : JVal) : Except PyErr ℚ :=
  match v with
  | .int n => .ok (n : ℚ)
  | .rat q => .ok q
  | .bool b => .ok (if b then 1 else 0)
  | .str s => floatOfChars s.data
  | _ => .error .typeError

/-- Python `int(x)` on a modelled value (`int` of a float truncates toward zero). -/
def pyTrunc (q : ℚ) : ℤ :=
  q.num.tdiv q.den

def pyToInt (v : JVal) : Except PyErr ℤ :=
  match v with
  | .int n => .ok n
  | .rat q => .ok (pyTrunc q)
  | .bool b => .ok (if b then 1 else 0)
  | .str s => intOfChars s.data
  | _ => .error .typeError

/-- Python `needle in container` for a string needle (`str` substring test,
`list` membership, `dict` key membership; `TypeError` otherwise). -/
def pyInOp (needle : String) (container : JVal) : Except PyErr Bool :=
  match container with
  | .str s => .ok (pyStrIn needle s)
  | .list xs => .ok (xs.any (fun x => match x with | .str t => t == needle | _ => false))
  | .dict kvs => .ok (kvs.any (fun kv => kv.1 == needle))
  | _ => .error .typeError

/-- `except (ValueError, TypeError): <default>` around an `Except` computation:
those two exceptions are replaced by the default, any other one propagates. -/
def catchVT {α : Type} (e : Except PyErr α) (dflt : α) : Except PyErr α :=
  match e with
  | .ok a => .ok a
  | .error .valueError => .ok dflt
  | .error .typeError => .ok dflt
  | .error err => .error err

/-! ## `noaa_utils.py`: temperature and speed conversions -/

/-- `noaa_utils.convert_F_to_C`:
`return (int(((temperature - 32) * 5/9) * 100.0)) / 100.0`. -/
def convert_F_to_C (temperature : ℚ) : ℚ :=
  (pyTrunc ((temperature - 32) * 5 / 9 * 100) : ℚ) / 100

/-- `noaa_utils.convert_C_to_F`:
`return int(((temperature * 9.0/5.0) + 32) * 100) / 100.0`. -/
def convert_C_to_F (temperature : ℚ) : ℚ :=
  (pyTrunc ((temperature * 9 / 5 + 32) * 100) : ℚ) / 100

/-- `noaa_utils.speed_miph_to_mps`: falsy input yields `0.0`; a string is first
converted with `float`, an unparsable one standing in for `0`; numeric values are
divided by `2.237`; any other type yields `0.0`. -/
def speed_miph_to_mps (v : JVal) : ℚ :=
  if pyFalsy v then 0
  else
    let v2 : JVal := match v with
      | .str s => match floatOfChars s.data with
        | .ok q => JVal.rat q
        | .error _ => JVal.int 0
      | other => other
    match v2 with
    | .int n => (n : ℚ) / (2237 / 1000)
    | .rat q => q / (2237 / 1000)
    | .bool b => (if b then (1 : ℚ) else 0) / (2237 / 1000)
    | _ => 0

/-! ## `grid_forecast.py`: `GridWeather._find_in_gridpoints`

The sampler walks the quantity's `values` in payload order; each entry's
`validTime` has already been decoded (by `iso_to_float_time_and_delta`, proved
separately) into an interval start and a duration in seconds. -/

structure GridEntry where
  start : ℚ
  dur : ℚ
  val : String

/-- The loop body of `_find_in_gridpoints`: `result` starts as `None`; for each
entry, `if interval_start >= when or interval_start + dt > when: break`,
otherwise `result = value.get("value")`. -/
def findLoop (when : ℚ) : List GridEntry → Option String → Option String
  | [], acc => acc
  | e :: rest, acc =>
    if e.start ≥ when ∨ e.start + e.dur > when then acc
    else findLoop when rest (some e.val)

def find_in_gridpoints (vs : List GridEntry) (when : ℚ) : Option String :=
  findLoop when vs none

/-! ## `noaa_utils.py`: time-string decoding -/

/-- Does `"/PT"` start at this position with a nonempty remainder?  (One
candidate match of the regex: `c :: rest` is the tail of the subject beginning
at the candidate `'/'`.) -/
def ptSuffix (c : Char) (rest : List Char) : Option (List Char) :=
  match rest with
  | p :: t :: suf =>
    if c = '/' ∧ p = 'P' ∧ t = 'T' ∧ suf ≠ [] then some suf else none
  | _ => none

/-- Greedy match of the regex `^(.+)/PT(.+)$` (step of
`iso_to_float_time_and_delta`): split at the **last** occurrence of `"/PT"`
that leaves a nonempty suffix; `matchPTCore` may return an empty prefix, the
wrapper `matchPT` rules it out (`(.+)` needs at least one character). -/
def matchPTCore : List Char → Option (List Char × List Char)
  | [] => none
  | c :: rest =>
    match matchPTCore rest with
    | some pq => some (c :: pq.1, pq.2)
    | none =>
      match ptSuffix c rest with
      | some suf => some ([], suf)
      | none => none

def matchPT (s : String) : Option (String × String) :=
  match matchPTCore s.data with
  | some pq => if pq.1.isEmpty then none else some (⟨pq.1⟩, ⟨pq.2⟩)
  | none => none

/-- `iso_time.split('/')[0]`: everything before the first `'/'`. -/
def firstSeg (s : String) : String :=
  ⟨s.data.takeWhile (fun c => c != '/')⟩

/-- Python `period_str.endswith(<single char>)`. -/
def lastIs (c : Char) (cs : List Char) : Bool :=
  cs.getLast? == some c

/-- The duration branch of `iso_to_float_time_and_delta`: a period string
ending in `H`/`M`/`S` has its remainder parsed with `int(...)` (hours, minutes
or seconds), anything else leaves the `timedelta` at zero seconds. -/
def durationOf (p : List Char) : Except PyErr ℚ :=
  if lastIs 'H' p then
    match intOfChars p.dropLast with
    | .ok h => .ok ((h : ℚ) * 3600)
    | .error e => .error e
  else if lastIs 'M' p then
    match intOfChars p.dropLast with
    | .ok m => .ok ((m : ℚ) * 60)
    | .error e => .error e
  else if lastIs 'S' p then
    match intOfChars p.dropLast with
    | .ok s => .ok ((s : ℚ))
    | .error e => .error e
  else .ok 0

/-- `noaa_utils.iso_to_float_time_and_delta` (with `datetime.fromisoformat`
abstracted by `epochOf`; `none` stands for its `ValueError`): try the `/PT`
regex first, otherwise split on `'/'` and keep the first segment with a zero
duration. -/
def iso_to_float_time_and_delta (epochOf : String → Option ℚ) (s : String) :
    Except PyErr (ℚ × ℚ) :=
  match matchPT s with
  | some tp =>
    match epochOf tp.1 with
    | none => .error .valueError
    | some e =>
      match durationOf tp.2.data with
      | .ok d => .ok (e, d)
      | .error err => .error err
  | none =>
    match epochOf (firstSeg s) with
    | some q => .ok (q, 0)
    | none => .error .valueError

/-- `noaa_utils.iso_to_float_time` applied to a raw JSON value: a falsy value
yields `0.0`, a string is parsed (abstracted by `epochOf`), a non-string raises
`TypeError` inside `datetime.fromisoformat`. -/
def iso_to_float_time (epochOf : String → Option ℚ) (v : JVal) : Except PyErr ℚ :=
  if pyFalsy v then .ok 0
  else match v with
    | .str s => match epochOf s with
      | some q => .ok q
      | none => .error .valueError
    | _ => .error .typeError

/-! ## `daily_forecast.py`: `DailyForecast._parse_period` / `_parse` -/

/-- The canonical per-period record built by `_parse_period` (field names follow
`const.FORECAST_ATTR_*`; fields the code copies verbatim keep type `JVal`). -/
structure Forecast where
  datetime : JVal
  number : JVal
  is_daytime : JVal
  last_api_update : ℚ
  timestamp : ℚ
  start_time : JVal
  end_time : JVal
  name : JVal
  condition : JVal
  humidity : JVal
  native_temperature : Option ℚ
  native_temperature_unit : String
  precipitation_probability : ℤ
  native_wind_speed : Option ℚ
  wind_bearing : JVal
  icon : JVal

/-- The temperature block of `_parse_period`:
`value = float(period.get("temperature")); unit = period.get("temperatureUnit");`
`if "F" in unit: value = convert_F_to_C(value)` — with
`except (ValueError, TypeError)` defaulting to `None`. -/
def tempExtractE (kvs : List (String × JVal)) : Except PyErr (Option ℚ) :=
  catchVT
    (match pyFloat (pyGet kvs "temperature") with
     | .error e => .error e
     | .ok v =>
       match pyInOp "F" (pyGet kvs "temperatureUnit") with
       | .error e => .error e
       | .ok b => .ok (some (if b then convert_F_to_C v else v)))
    none

/-- The precipitation-probability block of `_parse_period`:
`int(period.get("probabilityOfPrecipitation").get("value"))` — with
`except (ValueError, TypeError)` defaulting to `0`.  A missing (or non-dict)
field makes the inner `.get` raise `AttributeError`, which that clause does
**not** catch. -/
def precipExtractE (kvs : List (String × JVal)) : Except PyErr ℤ :=
  catchVT
    (match pyGetAttr (pyGet kvs "probabilityOfPrecipitation") "value" with
     | .error e => .error e
     | .ok inner => pyToInt inner)
    0

/-- Python `str.split()` (split on whitespace runs, dropping empty pieces). -/
def wsSplitAux : List Char → List Char → List String
  | [], acc => if acc.isEmpty then [] else [⟨acc.reverse⟩]
  | c :: rest, acc =>
    if pyIsSpace c then
      if acc.isEmpty then wsSplitAux rest [] else (⟨acc.reverse⟩ : String) :: wsSplitAux rest []
    else wsSplitAux rest (c :: acc)

/-- Python `x.split()` where `x` may not be a string (`AttributeError` then). -/
def pySplitWs (v : JVal) : Except PyErr (List String) :=
  match v with
  | .str s => .ok (wsSplitAux s.data [])
  | _ => .error .attributeError

/-- The wind-speed block of `_parse_period`:
`items = period.get("windSpeed").split(); value = float(items[0]);`
`if "mph" in items: value = speed_miph_to_mps(value)` — with
`except (ValueError, TypeError)` defaulting to `None`.  A missing field raises
`AttributeError` at `.split()`, an empty string raises `IndexError` at
`items[0]`; neither is caught. -/
def windExtractE (kvs : List (String × JVal)) : Except PyErr (Option ℚ) :=
  catchVT
    (match pySplitWs (pyGet kvs "windSpeed") with
     | .error e => .error e
     | .ok items =>
       match items.head? with
       | none => .error .indexError
       | some first =>
         match floatOfChars first.data with
         | .error e => .error e
         | .ok v =>
           .ok (some (if items.contains "mph" then speed_miph_to_mps (JVal.rat v) else v)))
    none

/-- `DailyForecast._parse_period` (field extractions in source order, so the
first uncaught exception decides the error; `fetchedAt` is the `timestamp`
argument of the constructor, stored as `last_api_update` in every record). -/
def parse_period (epochOf : String → Option ℚ) (fetchedAt : ℚ) (v : JVal) :
    Except PyErr Forecast :=
  match v with
  | .dict kvs =>
    match iso_to_float_time epochOf (pyGet kvs "startTime") with
    | .error e => .error e
    | .ok tstamp =>
    match tempExtractE kvs with
    | .error e => .error e
    | .ok temp =>
    match precipExtractE kvs with
    | .error e => .error e
    | .ok precip =>
    match windExtractE kvs with
    | .error e => .error e
    | .ok wind =>
    Except.ok
      { datetime := pyGet kvs "startTime"
        number := pyGet kvs "number"
        is_daytime := pyGet kvs "isDaytime"
        last_api_update := fetchedAt
        timestamp := tstamp
        start_time := pyGet kvs "startTime"
        end_time := pyGet kvs "endTime"
        name := pyGet kvs "name"
        condition := pyGet kvs "shortForecast"
        humidity := JVal.null
        native_temperature := temp
        native_temperature_unit := "Â°C"
        precipitation_probability := precip
        native_wind_speed := wind
        wind_bearing := pyGet kvs "windDirection"
        icon := pyGet kvs "icon" }
  | _ => .error .attributeError

/-- The loop of `DailyForecast._parse`: append parsed periods until the first
uncaught exception, which `except Exception` swallows, keeping the records
appended so far. -/
def parseAll (epochOf : String → Option ℚ) (fetchedAt : ℚ) : List JVal → List Forecast
  | [] => []
  | p :: rest =>
    match parse_period epochOf fetchedAt p with
    | .ok r => r :: parseAll epochOf fetchedAt rest
    | .error _ => []

/-- `DailyForecast._parse`: a falsy payload leaves `_data` as it was (empty at
construction); otherwise `_data` is reset and `payload.get("properties").get("periods")`
is iterated; any exception while reaching or iterating the list (including a
non-list value there) is caught by `except Exception`, keeping the records
appended so far. -/
def dailyParse (epochOf : String → Option ℚ) (fetchedAt : ℚ) (payload : JVal) :
    List Forecast :=
  if pyFalsy payload then []
  else
    match pyGetAttr payload "properties" with
    | .error _ => []
    | .ok props =>
      match pyGetAttr props "periods" with
      | .error _ => []
      | .ok (.list ps) => parseAll epochOf fetchedAt ps
      | .ok _ => []

/-! ## `noaa_client/__init__.py`: `NOAAApiForHA` refresh / caching state machine

The asynchronous HTTP layer is abstracted: one refresh cycle is a function of
the current state, the wall-clock time `now` of the cycle, and the payloads the
four URL fetches would deliver (`none` = request failed).  The successive
`time.time()` calls of one cycle are identified with `now`. -/

/-- `const.MIN_REFRESH_INTERVAL` ("do not spam NOAA server"). -/
def MIN_REFRESH_INTERVAL : ℚ := 1800

/-- `const.DEFAULT_REFRESH_INTERVAL` (12 hours). -/
def DEFAULT_REFRESH_INTERVAL : ℚ := 3600 * 12

/-- The cached structures of `NOAAApiForHA.__init__` (the parsed
`DailyForecast`/`HourlyForecast` objects are owned alongside the raw payloads
and follow exactly the same stores, so the payload fields stand for both). -/
structure ClientState where
  metadata : Option String
  metadata_at : ℚ
  forecast : Option String
  forecast_at : ℚ
  forecast_hourly : Option String
  forecast_hourly_at : ℚ
  forecast_grid_data : Option String
  forecast_grid_data_at : ℚ
  all_data_ok : Bool
  all_data_ok_at : ℚ
  refresh_interval : ℚ

/-- The state right after `NOAAApiForHA.__init__`. -/
def initState : ClientState :=
  { metadata := none, metadata_at := 0
    forecast := none, forecast_at := 0
    forecast_hourly := none, forecast_hourly_at := 0
    forecast_grid_data := none, forecast_grid_data_at := 0
    all_data_ok := false, all_data_ok_at := 0
    refresh_interval := DEFAULT_REFRESH_INTERVAL }

/-- `NOAAApiForHA.set_refresh_interval`: store the value, then clamp it to the
floor with `max(self._refresh_interval, MIN_REFRESH_INTERVAL)`. -/
def set_refresh_interval (s : ClientState) (v : ℚ) : ClientState :=
  { s with refresh_interval := max v MIN_REFRESH_INTERVAL }

/-- The payloads a refresh cycle's four GET requests would deliver. -/
structure FetchEnv where
  meta : Option String
  daily : Option String
  hourly : Option String
  grid : Option String

/-- `NOAAApiForHA._async_get_forecasts`: bail out on missing metadata; fetch the
three dependent payloads, storing each successful one with its timestamp;
return whether all three succeeded. -/
def async_get_forecasts (s : ClientState) (now : ℚ) (env : FetchEnv) :
    ClientState × Bool :=
  if s.metadata.isNone then (s, false)
  else
    let s1 := match env.daily with
      | some p => { s with forecast := some p, forecast_at := now }
      | none => s
    let s2 := match env.hourly with
      | some p => { s1 with forecast_hourly := some p, forecast_hourly_at := now }
      | none => s1
    let s3 := match env.grid with
      | some p => { s2 with forecast_grid_data := some p, forecast_grid_data_at := now }
      | none => s2
    (s3, env.daily.isSome && env.hourly.isSome && env.grid.isSome)

/-- `NOAAApiForHA.async_get_for_location`: a failed metadata lookup returns
`False` with the state untouched; on success the metadata and its timestamp are
stored, the three forecasts fetched, `_all_data_ok` set accordingly and
`_all_data_ok_at` stamped only when everything succeeded. -/
def async_get_for_location (s : ClientState) (now : ℚ) (env : FetchEnv) :
    ClientState × Bool :=
  match env.meta with
  | none => (s, false)
  | some m =>
    let s1 := { s with metadata := some m, metadata_at := now }
    let fr := async_get_forecasts s1 now env
    ({ fr.1 with
        all_data_ok := fr.2
        all_data_ok_at := if fr.2 then now else fr.1.all_data_ok_at }, fr.2)

/-- The guard of `NOAAApiForHA.async_refresh`:
`self._all_data_ok and (time.time() - self._all_data_ok_at < self._refresh_interval)`. -/
def refreshGuard (s : ClientState) (now : ℚ) : Bool :=
  s.all_data_ok && decide (now - s.all_data_ok_at < s.refresh_interval)

/-- `NOAAApiForHA.async_refresh`: return the cached result when the guard
holds, otherwise run a full `async_get_for_location` cycle. -/
def async_refresh (s : ClientState) (now : ℚ) (env : FetchEnv) :
    ClientState × Bool :=
  if refreshGuard s now then (s, true)
  else async_get_for_location s now env

/-- Whether a call to `async_refresh` at instant `now` performs network
fetches (the negation of its early-out guard). -/
def refresh_fetches (s : ClientState) (now : ℚ) : Bool :=
  ! refreshGuard s now

/-! ## Concrete inputs used by witnesses and counterexamples -/

/-- An abstract ISO-time parser for concrete runs: every string is a valid
timestamp with epoch 1000. -/
def epochW : String → Option ℚ := fun _ => some 1000

/-- A structurally well-formed sample period. -/
def samplePeriod : JVal :=
  JVal.dict
    [("number", JVal.int 1),
     ("startTime", JVal.str "2024-09-17T20:00:00-07:00"),
     ("endTime", JVal.str "2024-09-18T06:00:00-07:00"),
     ("isDaytime", JVal.bool false),
     ("name", JVal.str "Tonight"),
     ("shortForecast", JVal.str "Clear"),
     ("temperature", JVal.int 70),
     ("temperatureUnit", JVal.str "F"),
     ("probabilityOfPrecipitation", JVal.dict [("value", JVal.int 30)]),
     ("windSpeed", JVal.str "10 mph"),
     ("windDirection", JVal.str "NW"),
     ("icon", JVal.str "day/skc")]

/-- `samplePeriod` with a malformed (null) nested precipitation value. -/
def samplePeriodNullPrecip : JVal :=
  JVal.dict
    [("number", JVal.int 1),
     ("startTime", JVal.str "2024-09-17T20:00:00-07:00"),
     ("temperature", JVal.int 70),
     ("temperatureUnit", JVal.str "F"),
     ("probabilityOfPrecipitation", JVal.dict [("value", JVal.null)]),
     ("windSpeed", JVal.str "10 mph")]

/-- The two-interval series of the grid-sampling claim, with `t0 = 0`:
`[(t0, 3600, "5"), (t0+3600, 3600, "7")]`. -/
def sampleSeries : List GridEntry :=
  [⟨0, 3600, "5"⟩, ⟨3600, 3600, "7"⟩]

/-! ## Spec-side rounding operators (the refinement targets of claim C5) -/

/-- The rounding scheme the spec ascribes to both conversions:
`floor(x*100)/100`. -/
def floorRound2 (x : ℚ) : ℚ := (⌊x * 100⌋ : ℚ) / 100

/-- `fahrenheit_to_celsius` as the spec words it (floor-then-scale). -/
def spec_F_to_C_floor (f : ℚ) : ℚ := floorRound2 ((f - 32) * 5 / 9)

/-- `celsius_to_fahrenheit` as the spec words it (floor-then-scale). -/
def spec_C_to_F_floor (c : ℚ) : ℚ := floorRound2 (c * 9 / 5 + 32)

/-- Rounding to 2 decimal places by truncation toward zero, the scheme the code
actually implements (`-⌊-y⌋` is the ceiling of `y`). -/
def truncRound2 (x : ℚ) : ℚ :=
  ((if 0 ≤ x * 100 then ⌊x * 100⌋ else -⌊-(x * 100)⌋ : ℤ) : ℚ) / 100

/-! ## Helper lemmas -/

theorem pyTrunc_eq (q : ℚ) : pyTrunc q = if 0 ≤ q then ⌊q⌋ else -⌊-q⌋ := by
  have hnn : ∀ r : ℚ, 0 ≤ r → pyTrunc r = ⌊r⌋ := by
    intro r hr
    have hnum : 0 ≤ r.num := Rat.num_nonneg.mpr hr
    have hden : (0 : ℤ) ≤ r.den := Int.natCast_nonneg r.den
    rw [pyTrunc, Int.tdiv_eq_ediv hnum hden, Rat.floor_def]
  by_cases h : 0 ≤ q
  · rw [if_pos h, hnn q h]
  · rw [if_neg h]
    have hq : 0 ≤ -q := by linarith [not_le.mp h]
    have : pyTrunc (-q) = ⌊-q⌋ := hnn _ hq
    rw [pyTrunc, Rat.num_neg_eq_neg_num, Rat.neg_den] at this
    rw [pyTrunc, ← neg_neg q.num, Int.neg_tdiv, this]

/-! ## C1 — grid sampling -/

/-- C1: the claim says sampling picks the last interval whose **start** is ≤ the
query instant, with `sample(t0+1800) = 5`, `sample(t0+3600+1) = 7`,
`sample(t0-1) = null` on the series `[(t0,3600,"5"), (t0+3600,3600,"7")]`.
The code disagrees: its loop breaks *before* recording the interval containing
the query instant, so it returns the last interval that has already **ended**:
`none` at `t0+1800`, `"5"` at `t0+3600+1`, `none` at `t0-1` (here `t0 = 0`). -/
theorem grid_sample_returns_last_elapsed_interval :
    find_in_gridpoints sampleSeries 1800 = none
    ∧ find_in_gridpoints sampleSeries 3601 = some "5"
    ∧ find_in_gridpoints sampleSeries (-1) = none := by
  refine ⟨?_, ?_, ?_⟩ <;>
  · rw [find_in_gridpoints, sampleSeries]
    norm_num [findLoop]

/-! ## C5 — temperature conversion rounding -/

/-- C5 counterexample: the claim says `fahrenheit_to_celsius(f)` equals
`floor(((f-32)*5/9)*100)/100` for every `f`; at `f = 31` the code truncates
`-55.55…` toward zero to `-55` (Python `int(...)`), giving `-0.55`, while the
floor scheme gives `-0.56`. -/
theorem convert_F_to_C_not_floor_at_31 :
    convert_F_to_C 31 ≠ spec_F_to_C_floor 31 := by
  have h1 : convert_F_to_C 31 = -11 / 20 := by
    rw [convert_F_to_C, pyTrunc_eq]
    norm_num
  have h2 : spec_F_to_C_floor 31 = -14 / 25 := by
    rw [spec_F_to_C_floor, floorRound2]
    norm_num
  rw [h1, h2]
  norm_num

/-- C5 (amended): both conversions round to 2 decimal places by truncation
**toward zero** (`int(x*100)/100`), which agrees with the claim's
floor-then-scale scheme exactly on inputs whose scaled value is nonnegative
(`f ≥ 32` resp. `c ≥ -160/9`). -/
theorem convert_round2_by_truncation (f c : ℚ) :
    convert_F_to_C f = truncRound2 ((f - 32) * 5 / 9)
    ∧ convert_C_to_F c = truncRound2 (c * 9 / 5 + 32)
    ∧ (32 ≤ f → convert_F_to_C f = spec_F_to_C_floor f)
    ∧ (-160 / 9 ≤ c → convert_C_to_F c = spec_C_to_F_floor c) := by
  refine ⟨?_, ?_, ?_, ?_⟩
  · rw [convert_F_to_C, truncRound2, pyTrunc_eq]
  · rw [convert_C_to_F, truncRound2, pyTrunc_eq]
  · intro hf
    have h0 : 0 ≤ (f - 32) * 5 / 9 * 100 := by linarith
    rw [convert_F_to_C, spec_F_to_C_floor, floorRound2, pyTrunc_eq, if_pos h0]
  · intro hc
    have h0 : 0 ≤ (c * 9 / 5 + 32) * 100 := by linarith
    rw [convert_C_to_F, spec_C_to_F_floor, floorRound2, pyTrunc_eq, if_pos h0]

/-- Witness for `convert_round2_by_truncation` at `f = 212`, `c = 100`. -/
theorem convert_round2_by_truncation_witness :
    convert_F_to_C 212 = spec_F_to_C_floor 212
    ∧ convert_C_to_F 100 = spec_C_to_F_floor 100 :=
  ⟨(convert_round2_by_truncation 212 100).2.2.1 (by norm_num),
   (convert_round2_by_truncation 212 100).2.2.2 (by norm_num)⟩

/-! ## C4 — partial storage in `fetch_all`, untouched cache on metadata failure -/

/-- C4: in one `async_get_for_location` cycle with successful metadata lookup,
each dependent payload that arrives is stored together with its fetch
timestamp regardless of the other two, the returned flag and `_all_data_ok`
hold exactly when all three arrived; and a failed metadata lookup returns
`False` leaving the whole cached state (metadata, daily, hourly, grid and all
their timestamps) unchanged. -/
theorem fetch_all_partial_store (s : ClientState) (now : ℚ) (m : String)
    (dP hP gP : Option String) :
    ((async_get_for_location s now ⟨some m, dP, hP, gP⟩).1.metadata = some m)
    ∧ ((async_get_for_location s now ⟨some m, dP, hP, gP⟩).1.metadata_at = now)
    ∧ ((async_get_for_location s now ⟨some m, dP, hP, gP⟩).1.forecast
        = if dP.isSome then dP else s.forecast)
    ∧ ((async_get_for_location s now ⟨some m, dP, hP, gP⟩).1.forecast_at
        = if dP.isSome then now else s.forecast_at)
    ∧ ((async_get_for_location s now ⟨some m, dP, hP, gP⟩).1.forecast_hourly
        = if hP.isSome then hP else s.forecast_hourly)
    ∧ ((async_get_for_location s now ⟨some m, dP, hP, gP⟩).1.forecast_hourly_at
        = if hP.isSome then now else s.forecast_hourly_at)
    ∧ ((async_get_for_location s now ⟨some m, dP, hP, gP⟩).1.forecast_grid_data
        = if gP.isSome then gP else s.forecast_grid_data)
    ∧ ((async_get_for_location s now ⟨some m, dP, hP, gP⟩).1.forecast_grid_data_at
        = if gP.isSome then now else s.forecast_grid_data_at)
    ∧ ((async_get_for_location s now ⟨some m, dP, hP, gP⟩).2
        = (dP.isSome && hP.isSome && gP.isSome))
    ∧ ((async_get_for_location s now ⟨some m, dP, hP, gP⟩).1.all_data_ok
        = (dP.isSome && hP.isSome && gP.isSome))
    ∧ (async_get_for_location s now ⟨none, dP, hP, gP⟩ = (s, false)) := by
  cases dP <;> cases hP <;> cases gP <;>
    simp [async_get_for_location, async_get_forecasts]

/-! ## C3 — refresh staleness policy -/

/-- C3 counterexample: the claim says at most one of two `refresh()` calls less
than 30 minutes apart performs network fetches, for **every** client state.
From the initial state, a refresh at `t=0` whose metadata fetch fails leaves
`_all_data_ok` false, so a second refresh 60 seconds later fetches again: both
calls of a pair 60 s apart perform network fetches. -/
theorem refresh_refetches_after_failure :
    refresh_fetches initState 0 = true
    ∧ refresh_fetches (async_refresh initState 0 ⟨none, none, none, none⟩).1 60 = true
    ∧ (60 : ℚ) - 0 < MIN_REFRESH_INTERVAL := by
  refine ⟨rfl, rfl, by norm_num [MIN_REFRESH_INTERVAL]⟩

/-- C3 (amended): the no-fetch guarantee within the 30-minute floor holds when
the earlier call's fetch succeeds (after a failed fetch the next call fetches
again regardless of spacing): `refresh()` is a no-op returning the cached
result whenever `all_ok` holds and `now - all_ok_at < refresh_interval`; the
effective interval after `set_refresh_interval(v)` is `max(v, 1800)` (and is at
least the floor initially); a successful fetch at `now` makes any call less
than the floor later a no-op; once the configured interval has elapsed (or
after a failure) `refresh()` fetches anew. -/
theorem refresh_floor_after_success (s : ClientState) (v now t : ℚ)
    (env : FetchEnv) (m d h g : String) :
    ((set_refresh_interval s v).refresh_interval = max v MIN_REFRESH_INTERVAL)
    ∧ (MIN_REFRESH_INTERVAL ≤ (set_refresh_interval s v).refresh_interval)
    ∧ (MIN_REFRESH_INTERVAL ≤ initState.refresh_interval)
    ∧ (s.all_data_ok = true → now - s.all_data_ok_at < s.refresh_interval →
        async_refresh s now env = (s, true))
    ∧ (refresh_fetches s now = true → MIN_REFRESH_INTERVAL ≤ s.refresh_interval →
        now ≤ t → t - now < MIN_REFRESH_INTERVAL →
        refresh_fetches (async_refresh s now ⟨some m, some d, some h, some g⟩).1 t
          = false)
    ∧ (s.refresh_interval ≤ now - s.all_data_ok_at → refresh_fetches s now = true)
    ∧ (s.all_data_ok = false → refresh_fetches s now = true) := by
  refine ⟨rfl, le_max_right _ _, ?_, ?_, ?_, ?_, ?_⟩
  · norm_num [initState, MIN_REFRESH_INTERVAL, DEFAULT_REFRESH_INTERVAL]
  · intro h1 h2
    simp [async_refresh, refreshGuard, h1, h2]
  · intro hfetch hfloor hle hlt
    have hguard : refreshGuard s now = false := by
      simpa [refresh_fetches] using hfetch
    rw [async_refresh, if_neg (by simp [hguard])]
    simp only [async_get_for_location, async_get_forecasts, Option.isNone_some,
      Bool.false_eq_true, if_false, Option.isSome_some, Bool.and_self, if_true]
    simp [refresh_fetches, refreshGuard]
    linarith [hfloor, hlt]
  · intro h1
    have : ¬(now - s.all_data_ok_at < s.refresh_interval) := not_lt.mpr h1
    simp [refresh_fetches, refreshGuard, this]
  · intro h1
    simp [refresh_fetches, refreshGuard, h1]

/-- Witness for `refresh_floor_after_success`: from the initial state, a
successful refresh at `t=0` makes a second call at `t=60` perform no fetch. -/
theorem refresh_floor_after_success_witness :
    refresh_fetches
      (async_refresh initState 0 ⟨some "m", some "d", some "h", some "g"⟩).1 60
      = false :=
  (refresh_floor_after_success initState 60 0 60 ⟨none, none, none, none⟩
      "m" "d" "h" "g").2.2.2.2.1 rfl
    (by norm_num [initState, MIN_REFRESH_INTERVAL, DEFAULT_REFRESH_INTERVAL])
    (by norm_num) (by norm_num [MIN_REFRESH_INTERVAL])

/-! ## C9 — mph→m/s conversion tolerance -/

/-- C9: `speed_miph_to_mps` never raises (it is a total function of the input
value): falsy inputs (`None`, `0`, `""`) and non-numeric strings yield `0.0`,
numeric and numeric-string inputs are divided by `2.237`, and
`speed_miph_to_mps(10)` is within `0.001` of `4.470`. -/
theorem speed_miph_to_mps_tolerant :
    speed_miph_to_mps JVal.null = 0
    ∧ speed_miph_to_mps (JVal.int 0) = 0
    ∧ speed_miph_to_mps (JVal.str "") = 0
    ∧ speed_miph_to_mps (JVal.str "garbage") = 0
    ∧ (∀ (s : String) (e : PyErr), floatOfChars s.data = .error e →
        speed_miph_to_mps (JVal.str s) = 0)
    ∧ (∀ n : ℤ, speed_miph_to_mps (JVal.int n) = (n : ℚ) / (2237 / 1000))
    ∧ (∀ q : ℚ, speed_miph_to_mps (JVal.rat q) = q / (2237 / 1000))
    ∧ (∀ (s : String) (q : ℚ), floatOfChars s.data = .ok q → s.data ≠ [] →
        speed_miph_to_mps (JVal.str s) = q / (2237 / 1000))
    ∧ |speed_miph_to_mps (JVal.int 10) - 447 / 100| < 1 / 1000 := by
  have herr : ∀ (s : String) (e : PyErr), floatOfChars s.data = .error e →
      speed_miph_to_mps (JVal.str s) = 0 := by
    intro s e hs
    by_cases hemp : s.data.isEmpty
    · simp [speed_miph_to_mps, pyFalsy, hemp]
    · have h10 : speed_miph_to_mps (JVal.str s)
          = ((0 : ℤ) : ℚ) / (2237 / 1000) := by
        simp only [speed_miph_to_mps, pyFalsy, hemp, if_false, hs,
          Bool.false_eq_true]
      rw [h10]
      norm_num
  refine ⟨rfl, ?_, rfl, herr "garbage" .valueError rfl, herr, ?_, ?_, ?_, ?_⟩
  · have : speed_miph_to_mps (JVal.int 0) = 0 := rfl
    exact this
  · intro n
    by_cases hn : n = 0
    · subst hn
      simp [speed_miph_to_mps, pyFalsy]
    · simp [speed_miph_to_mps, pyFalsy, hn]
  · intro q
    by_cases hq : q = 0
    · subst hq
      simp [speed_miph_to_mps, pyFalsy]
    · simp [speed_miph_to_mps, pyFalsy, hq]
  · intro s q hs hne
    have hemp : s.data.isEmpty = false := by
      cases h : s.data
      · exact absurd h hne
      · simp [h]
    simp only [speed_miph_to_mps, pyFalsy, hemp, Bool.false_eq_true, if_false, hs]
  · have h10 : speed_miph_to_mps (JVal.int 10) = ((10 : ℤ) : ℚ) / (2237 / 1000) := rfl
    rw [h10, abs_sub_lt_iff]
    constructor <;> norm_num

/-- Witness for `speed_miph_to_mps_tolerant`: a non-numeric string yields `0.0`. -/
theorem speed_miph_to_mps_tolerant_witness :
    speed_miph_to_mps (JVal.str "zzz") = 0 :=
  speed_miph_to_mps_tolerant.2.2.2.2.1 "zzz" PyErr.valueError rfl

/-! ## Helper lemmas for the time codec -/

theorem digit_ne_marks (c : Char) (h : c.isDigit = true) :
    c ≠ '/' ∧ c ≠ '+' ∧ c ≠ '-' ∧ pyIsSpace c = false := by
  refine ⟨?_, ?_, ?_, ?_⟩
  · intro he; subst he; exact absurd h (by decide)
  · intro he; subst he; exact absurd h (by decide)
  · intro he; subst he; exact absurd h (by decide)
  · cases hsp : pyIsSpace c
    · rfl
    · exfalso
      simp only [pyIsSpace, Bool.or_eq_true, beq_iff_eq] at hsp
      rcases hsp with ((((h1 | h1) | h1) | h1) | h1) | h1 <;>
        (subst h1; exact absurd h (by decide))

theorem all_digits_dropWhile_space (l : List Char) (hl : l.all Char.isDigit = true) :
    l.dropWhile pyIsSpace = l := by
  cases l with
  | nil => rfl
  | cons c rest =>
    have hc : c.isDigit = true := by
      simp only [List.all_cons, Bool.and_eq_true] at hl
      exact hl.1
    simp [List.dropWhile_cons, (digit_ne_marks c hc).2.2.2]

theorem trimChars_digits (ds : List Char) (h : ds.all Char.isDigit = true) :
    trimChars ds = ds := by
  have h2 : ds.reverse.all Char.isDigit = true := by
    rw [List.all_reverse]; exact h
  rw [trimChars, all_digits_dropWhile_space ds h,
    all_digits_dropWhile_space ds.reverse h2, List.reverse_reverse]

theorem signSplit_digits (ds : List Char) (hne : ds ≠ []) (h : ds.all Char.isDigit = true) :
    signSplit ds = (1, ds) := by
  cases ds with
  | nil => exact absurd rfl hne
  | cons c rest =>
    have hc : c.isDigit = true := by
      simp only [List.all_cons, Bool.and_eq_true] at h
      exact h.1
    simp only [signSplit]
    rw [if_neg (digit_ne_marks c hc).2.1, if_neg (digit_ne_marks c hc).2.2.1]

theorem intOfChars_digits (ds : List Char) (hne : ds ≠ []) (h : ds.all Char.isDigit = true) :
    intOfChars ds = .ok (digitsVal ds) := by
  have hisempty : ds.isEmpty = false := by
    cases ds with
    | nil => exact absurd rfl hne
    | cons c rest => rfl
  simp only [intOfChars, trimChars_digits ds h, signSplit_digits ds hne h,
    hisempty, h, Bool.not_false, Bool.and_self, if_true, one_mul]

theorem ptSuffix_none_of_ne (c : Char) (rest : List Char) (hc : c ≠ '/') :
    ptSuffix c rest = none := by
  cases rest with
  | nil => rfl
  | cons p rest2 =>
    cases rest2 with
    | nil => rfl
    | cons tc suf =>
      rw [ptSuffix, if_neg]
      exact fun hand => hc hand.1

theorem matchPTCore_no_slash (cs : List Char) (h : '/' ∉ cs) :
    matchPTCore cs = none := by
  induction cs with
  | nil => rfl
  | cons c rest ih =>
    have hr : '/' ∉ rest := fun hm => h (List.mem_cons_of_mem _ hm)
    have hc : c ≠ '/' := by
      intro he
      subst he
      exact h (List.mem_cons_self _ _)
    simp only [matchPTCore, ih hr, ptSuffix_none_of_ne c rest hc]

theorem matchPTCore_split (t u : List Char) (hu : '/' ∉ u) (hne : u ≠ []) :
    matchPTCore (t ++ '/' :: 'P' :: 'T' :: u) = some (t, u) := by
  induction t with
  | nil =>
    have hin : '/' ∉ ('P' :: 'T' :: u) := by
      intro hm
      simp only [List.mem_cons] at hm
      rcases hm with h1 | h1 | h1
      · exact absurd h1 (by decide)
      · exact absurd h1 (by decide)
      · exact hu h1
    have h1 : matchPTCore ('P' :: 'T' :: u) = none := matchPTCore_no_slash _ hin
    have h2 : ptSuffix '/' ('P' :: 'T' :: u) = some u := by
      simp [ptSuffix, hne]
    rw [List.nil_append, matchPTCore, h1, h2]
  | cons c t2 ih =>
    rw [List.cons_append, matchPTCore, ih]

theorem matchPT_eq (s t : String) (u : List Char)
    (hs : s.data = t.data ++ '/' :: 'P' :: 'T' :: u)
    (ht : t.data ≠ []) (hu : '/' ∉ u) (hne : u ≠ []) :
    matchPT s = some (t, ⟨u⟩) := by
  have hemp : t.data.isEmpty = false := by
    cases hd : t.data with
    | nil => exact absurd hd ht
    | cons c l => rfl
  simp only [matchPT, hs, matchPTCore_split t.data u hu hne, hemp,
    Bool.false_eq_true, if_false]

theorem ptSuffix_none_of_not_starts (c : Char) (rest : List Char)
    (h : listStartsWith ['/', 'P', 'T'] (c :: rest) = false) :
    ptSuffix c rest = none := by
  cases rest with
  | nil => rfl
  | cons p rest2 =>
    cases rest2 with
    | nil => rfl
    | cons tc suf =>
      rw [ptSuffix, if_neg]
      intro hand
      rcases hand with ⟨h1, h2, h3, _⟩
      subst h1; subst h2; subst h3
      simp [listStartsWith] at h

theorem matchPTCore_none_of_no_sub (cs : List Char)
    (h : listContainsSub ['/', 'P', 'T'] cs = false) : matchPTCore cs = none := by
  induction cs with
  | nil => rfl
  | cons c rest ih =>
    simp only [listContainsSub, Bool.or_eq_false_iff] at h
    simp only [matchPTCore, ih h.2, ptSuffix_none_of_not_starts c rest h.1]

theorem takeWhile_until_slash (t : List Char) (h : '/' ∉ t) (u : List Char) :
    (t ++ '/' :: u).takeWhile (fun c => c != '/') = t := by
  induction t with
  | nil =>
    rw [List.nil_append, List.takeWhile_cons]
    simp
  | cons c t2 ih =>
    have hc : c ≠ '/' := by
      intro he
      subst he
      exact h (List.mem_cons_self _ _)
    have ht2 : '/' ∉ t2 := fun hm => h (List.mem_cons_of_mem _ hm)
    have hcb : (c != '/') = true := bne_iff_ne.mpr hc
    rw [List.cons_append, List.takeWhile_cons, if_pos hcb, ih ht2]

theorem firstSeg_append (t r : String) (h : '/' ∉ t.data) :
    firstSeg (t ++ "/" ++ r) = t := by
  have hdata : (t ++ "/" ++ r).data = t.data ++ '/' :: r.data := by
    rw [String.data_append, String.data_append, List.append_assoc]
    rfl
  rw [firstSeg, hdata, takeWhile_until_slash t.data h r.data]

theorem lastIs_concat (c x : Char) (ds : List Char) :
    lastIs c (ds ++ [x]) = (x == c) := by
  simp only [lastIs, List.getLast?_concat]
  rfl

theorem durationOf_unit (ds : List Char) (hne : ds ≠ []) (hd : ds.all Char.isDigit = true) :
    durationOf (ds ++ ['H']) = .ok ((digitsVal ds : ℚ) * 3600)
    ∧ durationOf (ds ++ ['M']) = .ok ((digitsVal ds : ℚ) * 60)
    ∧ durationOf (ds ++ ['S']) = .ok ((digitsVal ds : ℚ)) := by
  have hH : lastIs 'H' (ds ++ ['H']) = true := by rw [lastIs_concat]; rfl
  have hMH : lastIs 'H' (ds ++ ['M']) = false := by rw [lastIs_concat]; rfl
  have hMM : lastIs 'M' (ds ++ ['M']) = true := by rw [lastIs_concat]; rfl
  have hSH : lastIs 'H' (ds ++ ['S']) = false := by rw [lastIs_concat]; rfl
  have hSM : lastIs 'M' (ds ++ ['S']) = false := by rw [lastIs_concat]; rfl
  have hSS : lastIs 'S' (ds ++ ['S']) = true := by rw [lastIs_concat]; rfl
  have hint : intOfChars ds = .ok (digitsVal ds) := intOfChars_digits ds hne hd
  refine ⟨?_, ?_, ?_⟩ <;>
    simp only [durationOf, hH, hMH, hMM, hSH, hSM, hSS, if_true, if_false,
      Bool.false_eq_true, List.dropLast_concat, hint] <;>
    norm_cast

/-! ## C7 — `iso_to_float_time_and_delta` on well-formed inputs -/

/-- C7: for an input `<iso-time>/PT<n>H` (resp. `M`, `S`) the function returns
the epoch of `<iso-time>` paired with `n*3600` (resp. `n*60`, `n`) seconds
(`n` written as a nonempty digit string `ds` of value `digitsVal ds`); for a
plain slash-delimited input `<time>/<other>` containing no `"/PT"` at all, it
returns the epoch of the first segment paired with duration `0.0`.  The regex
branch is attempted first: the `/PT` forms are matched even though the slash
split would have produced a different first segment. -/
theorem iso_duration_parsing (f : String → Option ℚ) (t : String)
    (ds : List Char) (q : ℚ)
    (hf : f t = some q) (ht : t.data ≠ []) (hne : ds ≠ [])
    (hd : ds.all Char.isDigit = true) :
    iso_to_float_time_and_delta f (t ++ "/PT" ++ (⟨ds⟩ : String) ++ "H")
      = .ok (q, (digitsVal ds : ℚ) * 3600)
    ∧ iso_to_float_time_and_delta f (t ++ "/PT" ++ (⟨ds⟩ : String) ++ "M")
      = .ok (q, (digitsVal ds : ℚ) * 60)
    ∧ iso_to_float_time_and_delta f (t ++ "/PT" ++ (⟨ds⟩ : String) ++ "S")
      = .ok (q, (digitsVal ds : ℚ))
    ∧ (∀ r : String, listContainsSub ['/', 'P', 'T'] (t ++ "/" ++ r).data = false →
        '/' ∉ t.data →
        iso_to_float_time_and_delta f (t ++ "/" ++ r) = .ok (q, 0)) := by
  have hds : '/' ∉ ds := by
    intro hm
    have h2 := List.all_eq_true.mp hd _ hm
    exact absurd h2 (by decide)
  have hmem : ∀ x : Char, x ≠ '/' → '/' ∉ (ds ++ [x]) := by
    intro x hx hm
    rcases List.mem_append.mp hm with h1 | h1
    · exact hds h1
    · rcases List.mem_cons.mp h1 with h2 | h2
      · exact hx h2.symm
      · exact absurd h2 (List.not_mem_nil _)
  have main : ∀ (x : Char) (dq : ℚ), x ≠ '/' →
      durationOf (ds ++ [x]) = .ok dq →
      iso_to_float_time_and_delta f (t ++ "/PT" ++ (⟨ds⟩ : String) ++ (⟨[x]⟩ : String))
        = .ok (q, dq) := by
    intro x dq hx hdur
    have hdata : (t ++ "/PT" ++ (⟨ds⟩ : String) ++ (⟨[x]⟩ : String)).data
        = t.data ++ '/' :: 'P' :: 'T' :: (ds ++ [x]) := by
      rw [String.data_append, String.data_append, String.data_append,
        List.append_assoc, List.append_assoc]
      rfl
    have hm : matchPT (t ++ "/PT" ++ (⟨ds⟩ : String) ++ (⟨[x]⟩ : String))
        = some (t, ⟨ds ++ [x]⟩) :=
      matchPT_eq _ t (ds ++ [x]) hdata ht (hmem x hx) (by simp)
    simp only [iso_to_float_time_and_delta, hm, hf, hdur]
  obtain ⟨dH, dM, dS⟩ := durationOf_unit ds hne hd
  refine ⟨main 'H' _ (by decide) dH, main 'M' _ (by decide) dM,
    main 'S' _ (by decide) dS, ?_⟩
  intro r hsub hslash
  have hnone : matchPT (t ++ "/" ++ r) = none := by
    rw [matchPT, matchPTCore_none_of_no_sub _ hsub]
  simp only [iso_to_float_time_and_delta, hnone, firstSeg_append t r hslash, hf]

/-- Witness for `iso_duration_parsing`: a concrete run on
`"2024-09-17T20:00/PT12H"` and on `"2024-09-17T20:00/2024-09-18T06:00"`. -/
theorem iso_duration_parsing_witness :
    iso_to_float_time_and_delta epochW
        ("2024-09-17T20:00" ++ "/PT" ++ (⟨['1', '2']⟩ : String) ++ "H")
      = .ok (1000, (digitsVal ['1', '2'] : ℚ) * 3600)
    ∧ iso_to_float_time_and_delta epochW ("2024-09-17T20:00" ++ "/" ++ "2024-09-18T06:00")
      = .ok (1000, 0) :=
  ⟨(iso_duration_parsing epochW "2024-09-17T20:00" ['1', '2'] 1000 rfl (by decide)
      (by decide) (by decide)).1,
   (iso_duration_parsing epochW "2024-09-17T20:00" ['1', '2'] 1000 rfl (by decide)
      (by decide) (by decide)).2.2.2 "2024-09-18T06:00" (by decide) (by decide)⟩

/-! ## C10 — composite durations raise, unknown unit letters give zero -/

theorem lastIs_unique {c c' : Char} {cs : List Char} (h : lastIs c cs = true)
    (hcc : c ≠ c') : lastIs c' cs = false := by
  unfold lastIs at h ⊢
  have hc : cs.getLast? = some c := by simpa using h
  rw [hc]
  simpa using hcc

/-- C10: on an input `<iso-time>/PT<payload>` whose payload ends in `H`, `M` or
`S` but whose remaining characters do not parse as an integer (a composite ISO
duration such as `1H30M`), the function propagates the `ValueError` of
`int(...)` instead of returning; a payload ending in none of `H`/`M`/`S`
yields duration `0.0` without error. -/
theorem iso_duration_composite_raises (f : String → Option ℚ) (t p : String) (q : ℚ)
    (hf : f t = some q) (ht : t.data ≠ []) (hp : p.data ≠ []) (hsl : '/' ∉ p.data) :
    ((lastIs 'H' p.data = true ∨ lastIs 'M' p.data = true ∨ lastIs 'S' p.data = true) →
      intOfChars p.data.dropLast = .error .valueError →
      iso_to_float_time_and_delta f (t ++ "/PT" ++ p) = .error .valueError)
    ∧ (lastIs 'H' p.data = false → lastIs 'M' p.data = false →
      lastIs 'S' p.data = false →
      iso_to_float_time_and_delta f (t ++ "/PT" ++ p) = .ok (q, 0)) := by
  have hdata : (t ++ "/PT" ++ p).data = t.data ++ '/' :: 'P' :: 'T' :: p.data := by
    rw [String.data_append, String.data_append, List.append_assoc]
    rfl
  have hm : matchPT (t ++ "/PT" ++ p) = some (t, ⟨p.data⟩) :=
    matchPT_eq _ t p.data hdata ht hsl hp
  constructor
  · intro hunit hint
    have hdur : durationOf p.data = .error .valueError := by
      rcases hunit with h1 | h1 | h1
      · simp [durationOf, h1, hint]
      · have hH : lastIs 'H' p.data = false := lastIs_unique h1 (by decide)
        simp [durationOf, hH, h1, hint]
      · have hH : lastIs 'H' p.data = false := lastIs_unique h1 (by decide)
        have hM : lastIs 'M' p.data = false := lastIs_unique h1 (by decide)
        simp [durationOf, hH, hM, h1, hint]
    simp only [iso_to_float_time_and_delta, hm, hf, hdur]
  · intro h1 h2 h3
    have hdur : durationOf p.data = .ok 0 := by
      simp [durationOf, h1, h2, h3]
    simp only [iso_to_float_time_and_delta, hm, hf, hdur]

/-- Witness for `iso_duration_composite_raises`: the composite duration
`"/PT1H30M"` raises `ValueError`, the unknown unit `"/PT5X"` yields zero. -/
theorem iso_duration_composite_raises_witness :
    iso_to_float_time_and_delta epochW ("2024-09-17T20:00" ++ "/PT" ++ "1H30M")
      = .error .valueError
    ∧ iso_to_float_time_and_delta epochW ("2024-09-17T20:00" ++ "/PT" ++ "5X")
      = .ok (1000, 0) :=
  ⟨(iso_duration_composite_raises epochW "2024-09-17T20:00" "1H30M" 1000 rfl
      (by decide) (by decide) (by decide)).1 (Or.inr (Or.inl (by decide))) rfl,
   (iso_duration_composite_raises epochW "2024-09-17T20:00" "5X" 1000 rfl
      (by decide) (by decide) (by decide)).2 (by decide) (by decide) (by decide)⟩

/-! ## C2 — precipitation probability defaulting -/

/-- C2: the claim says a period **missing** the precipitation-probability field
still parses with probability `0` and does not raise.  In the code the inner
`.get("value")` is then called on `None`, raising `AttributeError`, which
`except (ValueError, TypeError)` does not catch: the period's parse aborts.
Only a *present but malformed* nested value (e.g. `{"value": null}`) is
defaulted to `0`. -/
theorem precip_missing_field_raises :
    parse_period epochW 0 (JVal.dict []) = .error .attributeError
    ∧ precipExtractE [] = .error .attributeError
    ∧ Except.map (fun r => r.precipitation_probability)
        (parse_period epochW 5 samplePeriodNullPrecip) = .ok 0
    ∧ precipExtractE [("probabilityOfPrecipitation", JVal.dict [("value", JVal.null)])]
      = .ok 0 :=
  ⟨rfl, rfl, rfl, rfl⟩

/-! ## C6 — temperature extraction -/

theorem pyFloat_error_vt (v : JVal) (e : PyErr) (h : pyFloat v = .error e) :
    e = PyErr.valueError ∨ e = PyErr.typeError := by
  cases v with
  | null => simp only [pyFloat, Except.error.injEq] at h; right; exact h.symm
  | bool b => exact Except.noConfusion h
  | int n => exact Except.noConfusion h
  | rat q => exact Except.noConfusion h
  | str s =>
    simp only [pyFloat, floatOfChars] at h
    cases hps : parseUnsigned (signSplit (trimChars s.data)).2 with
    | some q => rw [hps] at h; simp at h
    | none => rw [hps] at h; left; exact (Except.error.injEq _ _ ▸ h).symm
  | list xs => simp only [pyFloat, Except.error.injEq] at h; right; exact h.symm
  | dict kvs => simp only [pyFloat, Except.error.injEq] at h; right; exact h.symm

theorem pyInOp_error_t (n : String) (c : JVal) (e : PyErr) (h : pyInOp n c = .error e) :
    e = PyErr.typeError := by
  cases c with
  | null => simp only [pyInOp, Except.error.injEq] at h; exact h.symm
  | bool b => simp only [pyInOp, Except.error.injEq] at h; exact h.symm
  | int m => simp only [pyInOp, Except.error.injEq] at h; exact h.symm
  | rat q => simp only [pyInOp, Except.error.injEq] at h; exact h.symm
  | str s => exact Except.noConfusion h
  | list xs => exact Except.noConfusion h
  | dict kvs => exact Except.noConfusion h

/-- C6 counterexample: the claim says a numeric temperature with an **absent**
unit field passes through unconverted.  In the code `unit` is then `None` and
`"F" in None` raises `TypeError`, which the catch-all turns into the `None`
default: the parsed temperature is null, not `70`. -/
theorem temp_absent_unit_yields_null :
    tempExtractE [("temperature", JVal.int 70)] = .ok none
    ∧ tempExtractE [("temperature", JVal.int 70)] ≠ .ok (some 70) := by
  refine ⟨rfl, ?_⟩
  rw [show tempExtractE [("temperature", JVal.int 70)] = .ok none from rfl]
  simp

/-- C6 (amended): the parsed temperature is the F→C conversion of the numeric
value when the unit is a string containing `"F"`, the unconverted value when
the unit is a string not containing `"F"`; it is null when the temperature is
missing or unparsable **or when the unit field is absent** (`"F" in None`
raises `TypeError`, caught into the null default); and extraction never raises
(its only exceptions are `ValueError`/`TypeError`, all caught). -/
theorem temp_extraction_amended (kvs : List (String × JVal)) :
    (∀ (v : ℚ) (u : String), pyFloat (pyGet kvs "temperature") = .ok v →
      pyGet kvs "temperatureUnit" = JVal.str u →
      tempExtractE kvs = .ok (some (if pyStrIn "F" u then convert_F_to_C v else v)))
    ∧ (∀ e : PyErr, pyFloat (pyGet kvs "temperature") = .error e →
      tempExtractE kvs = .ok none)
    ∧ (pyGet kvs "temperatureUnit" = JVal.null → tempExtractE kvs = .ok none)
    ∧ (∃ r, tempExtractE kvs = .ok r) := by
  have hb : ∀ e : PyErr, pyFloat (pyGet kvs "temperature") = .error e →
      tempExtractE kvs = .ok none := by
    intro e he
    rcases pyFloat_error_vt _ _ he with h1 | h1 <;> subst h1 <;>
      simp [tempExtractE, he, catchVT]
  refine ⟨?_, hb, ?_, ?_⟩
  · intro v u hv hu
    simp [tempExtractE, hv, hu, pyInOp, catchVT]
  · intro hu
    cases hres : pyFloat (pyGet kvs "temperature") with
    | error e => exact hb e hres
    | ok v => simp [tempExtractE, hres, hu, pyInOp, catchVT]
  · cases hres : pyFloat (pyGet kvs "temperature") with
    | error e => exact ⟨none, hb e hres⟩
    | ok v =>
      cases hin : pyInOp "F" (pyGet kvs "temperatureUnit") with
      | error e2 =>
        have h2 := pyInOp_error_t _ _ _ hin
        subst h2
        exact ⟨none, by simp [tempExtractE, hres, hin, catchVT]⟩
      | ok b =>
        exact ⟨some (if b then convert_F_to_C v else v),
          by simp [tempExtractE, hres, hin, catchVT]⟩

/-- Witness for `temp_extraction_amended`: a Fahrenheit period converts. -/
theorem temp_extraction_amended_witness :
    tempExtractE [("temperature", JVal.int 70), ("temperatureUnit", JVal.str "F")]
      = .ok (some (if pyStrIn "F" "F" then convert_F_to_C ((70 : ℤ) : ℚ)
          else ((70 : ℤ) : ℚ))) :=
  (temp_extraction_amended _).1 ((70 : ℤ) : ℚ) "F" rfl rfl

/-! ## C8 — one record per period, input order, shared `fetched_at` -/

theorem parse_period_fetchedAt (f : String → Option ℚ) (ts : ℚ) (p : JVal)
    (r : Forecast) (h : parse_period f ts p = .ok r) : r.last_api_update = ts := by
  cases p with
  | null => exact Except.noConfusion h
  | bool b => exact Except.noConfusion h
  | int n => exact Except.noConfusion h
  | rat q => exact Except.noConfusion h
  | str s => exact Except.noConfusion h
  | list xs => exact Except.noConfusion h
  | dict kvs =>
    simp only [parse_period] at h
    cases h1 : iso_to_float_time f (pyGet kvs "startTime") with
    | error e => rw [h1] at h; exact Except.noConfusion h
    | ok tstamp =>
      rw [h1] at h
      cases h2 : tempExtractE kvs with
      | error e => rw [h2] at h; exact Except.noConfusion h
      | ok temp =>
        rw [h2] at h
        cases h3 : precipExtractE kvs with
        | error e => rw [h3] at h; exact Except.noConfusion h
        | ok precip =>
          rw [h3] at h
          cases h4 : windExtractE kvs with
          | error e => rw [h4] at h; exact Except.noConfusion h
          | ok wind =>
            rw [h4] at h
            injection h with h5
            subst h5
            rfl

theorem parseAll_fetchedAt (f : String → Option ℚ) (ts : ℚ) (ps : List JVal) :
    ∀ r ∈ parseAll f ts ps, r.last_api_update = ts := by
  induction ps with
  | nil => intro r hr; exact absurd hr (List.not_mem_nil r)
  | cons p rest ih =>
    intro r hr
    cases hp : parse_period f ts p with
    | error e =>
      rw [parseAll, hp] at hr
      exact absurd hr (List.not_mem_nil r)
    | ok r2 =>
      rw [parseAll, hp] at hr
      rcases List.mem_cons.mp hr with h1 | h1
      · subst h1; exact parse_period_fetchedAt f ts p r hp
      · exact ih r h1

theorem parseAll_all_ok (f : String → Option ℚ) (ts : ℚ) (ps : List JVal)
    (hok : ∀ p ∈ ps, ∃ r, parse_period f ts p = .ok r) :
    (parseAll f ts ps).length = ps.length
    ∧ ∀ i : ℕ, (parseAll f ts ps).get? i
        = (ps.get? i).bind (fun p => (parse_period f ts p).toOption) := by
  induction ps with
  | nil => exact ⟨rfl, fun i => by cases i <;> rfl⟩
  | cons p rest ih =>
    obtain ⟨r, hr⟩ := hok p (List.mem_cons_self _ _)
    have hrest := ih (fun p2 hp2 => hok p2 (List.mem_cons_of_mem _ hp2))
    constructor
    · rw [parseAll, hr, List.length_cons, List.length_cons, hrest.1]
    · intro i
      cases i with
      | zero => rw [parseAll, hr]; simp [hr, Except.toOption]
      | succ j =>
        rw [parseAll, hr, List.get?_cons_succ, List.get?_cons_succ, hrest.2 j]

/-- C8: when every period of `properties.periods` is structurally well-formed
(each `_parse_period` call succeeds), parsing the payload produces exactly one
record per input period, in input order — position `i` of the output is the
parse of position `i` of the input, and the lengths agree — and every record of
the batch carries the same `last_api_update` timestamp `ts`. -/
theorem parse_preserves_order (f : String → Option ℚ) (ts : ℚ) (ps : List JVal)
    (hok : ∀ p ∈ ps, ∃ r, parse_period f ts p = .ok r) :
    dailyParse f ts (JVal.dict [("properties", JVal.dict [("periods", JVal.list ps)])])
      = parseAll f ts ps
    ∧ (parseAll f ts ps).length = ps.length
    ∧ (∀ i : ℕ, (parseAll f ts ps).get? i
        = (ps.get? i).bind (fun p => (parse_period f ts p).toOption))
    ∧ (∀ r ∈ parseAll f ts ps, r.last_api_update = ts) :=
  ⟨rfl, (parseAll_all_ok f ts ps hok).1, (parseAll_all_ok f ts ps hok).2,
    parseAll_fetchedAt f ts ps⟩

/-- Witness for `parse_preserves_order` on a one-period payload. -/
theorem parse_preserves_order_witness :
    dailyParse epochW 5
        (JVal.dict [("properties", JVal.dict [("periods", JVal.list [samplePeriod])])])
      = parseAll epochW 5 [samplePeriod]
    ∧ (parseAll epochW 5 [samplePeriod]).length = [samplePeriod].length := by
  have hok : ∀ p ∈ [samplePeriod], ∃ r, parse_period epochW 5 p = .ok r := by
    intro p hp
    rw [List.mem_singleton] at hp
    subst hp
    exact ⟨_, rfl⟩
  exact ⟨(parse_preserves_order epochW 5 [samplePeriod] hok).1,
    (parse_preserves_order epochW 5 [samplePeriod] hok).2.1⟩
